import Mathlib

/-!
Verification of the AHT21 I2C temperature/humidity driver core
(`src/aht21/aht21.c`) against its natural-language specification.

The C functions `aht21_crc8`, `aht21_read_raw_data` and `aht21_read` are
shallowly embedded below.  Machine integers are modelled as `Nat` with
explicit `% 2 ^ w` truncation where the C code truncates (the `u8`
accumulator of the CRC, the `u32` arithmetic of the unit conversion, and
the `u32`-to-`int` two's-complement conversion of the final assignment).
The I2C bus is modelled as a transport whose `recv` is indexed by the
number of receives performed so far, so that busy-polling sequences can
be described.
-/

namespace AHT21

/-- One inner iteration of the CRC loop of `aht21_crc8` (aht21.c lines
95-101): if the top bit of the 8-bit accumulator is set, shift left and
XOR with the polynomial 0x31, else just shift left; the result is stored
back into a `u8`, i.e. truncated mod 256. -/
def crc8_shift (c : Nat) : Nat :=
  if c &&& 0x80 ≠ 0 then ((c <<< 1) ^^^ 0x31) % 256 else (c <<< 1) % 256

/-- The inner `for (j = 0; j < 8; j++)` loop of `aht21_crc8`, iterated
`n` times (the body does not read `j`). -/
def crc8_rounds (c : Nat) : Nat → Nat
  | 0 => c
  | n + 1 => crc8_rounds (crc8_shift c) n

/-- `aht21_crc8` (aht21.c lines 88-104): accumulator starts at 0xFF; each
data byte is XORed in and followed by 8 shift rounds. -/
def aht21_crc8 (data : List Nat) : Nat :=
  data.foldl (fun c b => crc8_rounds (c ^^^ b) 8) 0xFF

/-- Reference CRC-8 algorithm transcribed from the specification text
(spec §4.1): initialize the accumulator to 0xFF; for each input byte XOR
it into the accumulator, then perform 8 bit-shift steps, truncating to 8
bits each step (here the truncation is applied to the shift before the
XOR with the 6-bit polynomial, which cannot touch the high bits). -/
def crc8_spec_rounds : Nat → Nat → Nat
  | c, 0 => c
  | c, n + 1 =>
      crc8_spec_rounds
        (if c &&& 0x80 ≠ 0 then ((c <<< 1) % 256) ^^^ 0x31 else (c <<< 1) % 256) n

/-- Accumulating loop of the specification CRC. -/
def crc8_spec_aux (c : Nat) : List Nat → Nat
  | [] => c
  | b :: rest => crc8_spec_aux (crc8_spec_rounds (c ^^^ b) 8) rest

/-- Specification CRC over a whole byte sequence. -/
def crc8_spec (data : List Nat) : Nat :=
  crc8_spec_aux 0xFF data

/-- The 7-byte measurement frame (`u8 data[7]` in `aht21_read_raw_data`):
byte 0 is the status byte, bytes 1-5 carry the packed humidity and
temperature bits, byte 6 is the received CRC. -/
structure RawFrame where
  d0 : Nat
  d1 : Nat
  d2 : Nat
  d3 : Nat
  d4 : Nat
  d5 : Nat
  d6 : Nat
deriving DecidableEq, Repr

/-- The six CRC-covered bytes of a frame, in wire order (the C call
`aht21_crc8(data, 6)`). -/
def RawFrame.crcBytes (f : RawFrame) : List Nat :=
  [f.d0, f.d1, f.d2, f.d3, f.d4, f.d5]

/-- `humidity_raw` extraction (aht21.c line 154):
`(((u32)data[1] << 16) | ((u32)data[2] << 8) | (u32)data[3]) >> 4`. -/
def humidity_raw (f : RawFrame) : Nat :=
  ((f.d1 <<< 16) ||| (f.d2 <<< 8) ||| f.d3) >>> 4

/-- `temperature_raw` extraction (aht21.c line 159):
`(((u32)(data[3] & 0x0F) << 16) | ((u32)data[4] << 8) | (u32)data[5])`. -/
def temperature_raw (f : RawFrame) : Nat :=
  ((f.d3 &&& 0x0F) <<< 16) ||| (f.d4 <<< 8) ||| f.d5

/-- Truncation to an unsigned 32-bit value. -/
def u32 (n : Nat) : Nat := n % 4294967296

/-- Conversion of an unsigned 32-bit value to a signed `int` by
two's-complement reinterpretation (the behaviour of the final
assignments to `*humidity` and `*temperature`). -/
def toSigned32 (n : Nat) : Int :=
  if n % 4294967296 < 2147483648 then (n % 4294967296 : Int)
  else (n % 4294967296 : Int) - 4294967296

/-- The humidity conversion of aht21.c line 162:
`*humidity = (humidity_raw/(1<<20))*100;` — note the `u32` division by
`2^20` happens BEFORE the multiplication by 100. -/
def humidity_pct (hr : Nat) : Int :=
  toSigned32 (u32 ((hr / 1048576) * 100))

/-- The temperature conversion of aht21.c line 163:
`*temperature = ((temperature_raw/ (1<<20)) * 200) - 50;` — `u32`
division by `2^20` first, then `* 200`, then the `u32` subtraction of 50
(modelled as adding `2^32 - 50` mod `2^32`), reinterpreted as `int`. -/
def temperature_c (tr : Nat) : Int :=
  toSigned32 (u32 ((tr / 1048576) * 200 + (4294967296 - 50)))

/-- The pair of physical values produced from the raw fields, in the
order (humidity_pct, temperature_c) of the spec contract `to_physical`. -/
def to_physical (hr tr : Nat) : Int × Int :=
  (humidity_pct hr, temperature_c tr)

/-- Packing per the spec wire layout (§4.2 / the frame table in the
driver header comment): humidity occupies the top 20 bits of bytes 1-3,
temperature the low nibble of byte 3 followed by bytes 4-5.  Status and
CRC bytes are irrelevant to the field layout and set to 0. -/
def pack (hr tr : Nat) : RawFrame :=
  ⟨0, hr / 4096, (hr / 16) % 256, (hr % 16) * 16 + tr / 65536,
   (tr / 256) % 256, tr % 256, 0⟩

/- ### Transport and measurement sequencer -/

/-- The I2C bus as seen by the driver: `send` models `i2c_master_send`
(error = negative return value), `recv` models `i2c_master_recv` of the
7-byte frame, indexed by the number of receives performed so far in this
measurement, so that busy-polling sequences can be described. -/
structure Transport where
  send : List Nat → Except Int Unit
  recv : Nat → Except Int RawFrame

/-- The trigger-measurement command `{AHT21_CMD_MEASURE, 0x33, 0x00}`
(aht21.c line 108). -/
def measureCmd : List Nat := [0xAC, 0x33, 0x00]

/-- The polling loop of `aht21_read_raw_data` (aht21.c lines 126-143)
together with the post-loop BUSY check, starting at receive index `idx`
with `fuel` retries left, returning the frame that left the loop (or the
error) paired with the number of receives performed.  The base case is
reached only after the last received frame was still BUSY, which is
exactly when the post-loop check returns `-EBUSY` (= -16). -/
def pollAux (t : Transport) (idx : Nat) : Nat → Except Int RawFrame × Nat
  | 0 => (Except.error (-16), 0)
  | n + 1 =>
    match t.recv idx with
    | Except.error e => (Except.error e, 1)
    | Except.ok f =>
      if f.d0 &&& 0x80 ≠ 0 then
        ((pollAux t (idx + 1) n).1, (pollAux t (idx + 1) n).2 + 1)
      else
        (Except.ok f, 1)

/-- The decoded measurement, i.e. the two out-parameters of
`aht21_read_raw_data`. -/
structure Meas where
  temperature : Int
  humidity : Int
deriving DecidableEq, Repr

/-- The straight-line tail of `aht21_read_raw_data` after the polling
loop (aht21.c lines 144-166): propagate a polling error, reject a frame
whose byte 6 differs from the CRC of bytes 0-5 with `-EIO` (= -5), else
decode the fields and convert them to physical units. -/
def checkAndDecode : Except Int RawFrame × Nat → Except Int Meas × Nat
  | (Except.error e, c) => (Except.error e, c)
  | (Except.ok f, c) =>
    if aht21_crc8 f.crcBytes ≠ f.d6 then
      (Except.error (-5), c)
    else
      (Except.ok ⟨temperature_c (temperature_raw f), humidity_pct (humidity_raw f)⟩, c)

/-- `aht21_read_raw_data` (aht21.c lines 107-167): send the trigger
command (propagating a send error with no receive performed), poll up to
10 times, then CRC-check and decode.  The second component counts the
receives performed. -/
def aht21_read_raw_data (t : Transport) : Except Int Meas × Nat :=
  match t.send measureCmd with
  | Except.error e => (Except.error e, 0)
  | Except.ok _ => checkAndDecode (pollAux t 0 10)

/-- Outcome of one `aht21_read` call: the return value (byte count, 0
for end-of-stream, or a negative errno), the text copied to the user
buffer, and the file position after the call. -/
structure ReadResult where
  retval : Int
  output : String
  pos : Nat
deriving DecidableEq, Repr

/-- The `scnprintf(output, sizeof(output), "%d %d\n", temperature,
humidity)` formatting of `aht21_read` (aht21.c line 189); the 32-byte
buffer bound never truncates since two 32-bit decimals, the space and
the newline occupy at most 24 bytes. -/
def formatMeas (m : Meas) : String :=
  toString m.temperature ++ " " ++ toString m.humidity ++ "\n"

/-- `aht21_read` (aht21.c lines 174-197): a position past 0 yields
end-of-stream; a measurement error is returned with the position
untouched; on success the formatted text is copied out (`copy_to_user`
modelled as succeeding), the position advances by its length and that
length is returned. -/
def aht21_read (t : Transport) (ppos : Nat) : ReadResult :=
  if 0 < ppos then ⟨0, "", ppos⟩
  else
    match (aht21_read_raw_data t).1 with
    | Except.error e => ⟨e, "", ppos⟩
    | Except.ok m => ⟨((formatMeas m).length : Int), formatMeas m, ppos + (formatMeas m).length⟩

/- ### Concrete fixtures used by the witness theorems -/

/-- A frame sequence that is BUSY for the first three receives and clear
afterwards. -/
def C4_fs : Nat → RawFrame :=
  fun i => if i < 3 then ⟨0x80, 0, 0, 0, 0, 0, 0⟩ else ⟨0, 0, 0, 0, 0, 0, 0⟩

/-- A transport whose sends succeed and whose receives follow `C4_fs`. -/
def C4_t : Transport :=
  ⟨fun _ => Except.ok (), fun i => Except.ok (C4_fs i)⟩

/-- A transport that immediately delivers a clear frame whose CRC byte
(0) does not match the CRC of its first six bytes. -/
def C5_t : Transport :=
  ⟨fun _ => Except.ok (), fun _ => Except.ok ⟨0, 0, 0, 0, 0, 0, 0⟩⟩

/-- A transport whose send and receive both fail with `-EREMOTEIO`. -/
def C6_t : Transport :=
  ⟨fun _ => Except.error (-121), fun _ => Except.error (-121)⟩

/-- A concrete frame with distinct byte values. -/
def C2_frame : RawFrame := ⟨0, 18, 52, 86, 120, 154, 0⟩

/-- A transport that immediately delivers a clear all-zero frame with a
matching CRC byte (the CRC of six zero bytes is 106). -/
def C9_t : Transport :=
  ⟨fun _ => Except.ok (), fun _ => Except.ok ⟨0, 0, 0, 0, 0, 0, 106⟩⟩

/-- A transport whose send fails with `-EPROTO`. -/
def C10_t : Transport :=
  ⟨fun _ => Except.error (-71), fun _ => Except.error (-71)⟩

/- ### Bit-arithmetic helper lemmas -/

/-- A bitwise `or` whose right operand fits under the left operand's
trailing zeros is an addition. -/
lemma or_eq_add_of_lt (k a b : Nat) (hb : b < 2 ^ k) :
    (2 ^ k * a) ||| b = 2 ^ k * a + b := by
  symm
  apply Nat.eq_of_testBit_eq
  intro j
  rw [Nat.testBit_or, Nat.testBit_mul_pow_two_add a hb j]
  have h0 : (2 ^ k * a).testBit j = if j < k then false else a.testBit (j - k) := by
    have := Nat.testBit_mul_pow_two_add a (Nat.pos_pow_of_pos k (by norm_num)) j
    simpa using this
  by_cases hj : j < k
  · simp [hj, h0]
  · have hbj : b.testBit j = false := by
      apply Nat.testBit_lt_two_pow
      exact lt_of_lt_of_le hb (Nat.pow_le_pow_right (by norm_num) (le_of_not_lt hj))
    simp [hj, h0, hbj]

/-- The humidity extraction, rewritten in plain arithmetic: the 24-bit
big-endian value of bytes 1, 2, 3 divided by 16. -/
lemma humidity_raw_arith (f : RawFrame)
    (h2 : f.d2 < 256) (h3 : f.d3 < 256) :
    humidity_raw f = (f.d1 * 65536 + f.d2 * 256 + f.d3) / 16 := by
  unfold humidity_raw
  have e1 : f.d1 <<< 16 = 2 ^ 16 * f.d1 := by rw [Nat.shiftLeft_eq]; ring
  have e2 : f.d2 <<< 8 = 2 ^ 8 * f.d2 := by rw [Nat.shiftLeft_eq]; ring
  have hb1 : 2 ^ 8 * f.d2 < 2 ^ 16 := by norm_num; omega
  rw [e1, e2, Nat.shiftRight_eq_div_pow, or_eq_add_of_lt 16 f.d1 _ hb1]
  have e3 : 2 ^ 16 * f.d1 + 2 ^ 8 * f.d2 = 2 ^ 8 * (2 ^ 8 * f.d1 + f.d2) := by ring
  have hb2 : f.d3 < 2 ^ 8 := by norm_num; omega
  rw [e3, or_eq_add_of_lt 8 _ _ hb2]
  norm_num
  omega

/-- The temperature extraction, rewritten in plain arithmetic: the low
nibble of byte 3 as top bits, followed by bytes 4 and 5. -/
lemma temperature_raw_arith (f : RawFrame)
    (h4 : f.d4 < 256) (h5 : f.d5 < 256) :
    temperature_raw f = (f.d3 % 16) * 65536 + f.d4 * 256 + f.d5 := by
  unfold temperature_raw
  have em : f.d3 &&& 0x0F = f.d3 % 16 := by
    have := Nat.and_pow_two_sub_one_eq_mod f.d3 4
    norm_num at this
    exact this
  have e1 : (f.d3 % 16) <<< 16 = 2 ^ 16 * (f.d3 % 16) := by rw [Nat.shiftLeft_eq]; ring
  have e2 : f.d4 <<< 8 = 2 ^ 8 * f.d4 := by rw [Nat.shiftLeft_eq]; ring
  have hb1 : 2 ^ 8 * f.d4 < 2 ^ 16 := by norm_num; omega
  rw [em, e1, e2, or_eq_add_of_lt 16 _ _ hb1]
  have e3 : 2 ^ 16 * (f.d3 % 16) + 2 ^ 8 * f.d4 = 2 ^ 8 * (2 ^ 8 * (f.d3 % 16) + f.d4) := by
    ring
  have hb2 : f.d5 < 2 ^ 8 := by norm_num; omega
  rw [e3, or_eq_add_of_lt 8 _ _ hb2]
  norm_num
  omega


/- ### CRC equivalence lemmas -/

/-- XOR with the 6-bit polynomial commutes with truncation mod 256. -/
lemma xor49_mod (x : Nat) : (x ^^^ 49) % 256 = (x % 256) ^^^ 49 := by
  have e1 := Nat.and_pow_two_sub_one_eq_mod (x ^^^ 49) 8
  have e2 := Nat.and_pow_two_sub_one_eq_mod x 8
  norm_num at e1 e2
  rw [← e1, ← e2, Nat.and_xor_distrib_right]
  have h49 : 49 &&& 255 = 49 := by decide
  rw [h49]

/-- The source CRC inner step agrees with the specification's rendering
of the step. -/
lemma crc8_shift_eq_spec (c : Nat) :
    crc8_shift c =
      (if c &&& 0x80 ≠ 0 then ((c <<< 1) % 256) ^^^ 0x31 else (c <<< 1) % 256) := by
  unfold crc8_shift
  by_cases h : c &&& 0x80 ≠ 0
  · rw [if_pos h, if_pos h]
    exact xor49_mod (c <<< 1)
  · rw [if_neg h, if_neg h]

/-- The 8-round inner loops of source and specification agree. -/
lemma crc8_rounds_eq_spec : ∀ n c, crc8_rounds c n = crc8_spec_rounds c n := by
  intro n
  induction n with
  | zero => intro c; rfl
  | succ m ih =>
    intro c
    rw [crc8_rounds, crc8_spec_rounds, crc8_shift_eq_spec c]
    exact ih _

/-- The byte-folding loops of source and specification agree from any
accumulator. -/
lemma crc8_foldl_eq_spec_aux :
    ∀ (data : List Nat) (c : Nat),
      data.foldl (fun c b => crc8_rounds (c ^^^ b) 8) c = crc8_spec_aux c data := by
  intro data
  induction data with
  | nil => intro c; rfl
  | cons b rest ih =>
    intro c
    rw [List.foldl_cons, crc8_spec_aux, crc8_rounds_eq_spec]
    exact ih _

/- ### Polling-loop lemmas -/

/-- If every receive in the window is BUSY, the loop exhausts its fuel
and reports `-EBUSY` after `fuel` receives. -/
lemma pollAux_busy_all (t : Transport) (fs : Nat → RawFrame) (k : Nat)
    (hr : ∀ i, t.recv i = Except.ok (fs i))
    (hb : ∀ i, ((fs i).d0 &&& 0x80 ≠ 0) ↔ i < k) :
    ∀ fuel idx, idx + fuel ≤ k → pollAux t idx fuel = (Except.error (-16), fuel) := by
  intro fuel
  induction fuel with
  | zero => intro idx _; rfl
  | succ n ih =>
    intro idx h
    have hbusy : (fs idx).d0 &&& 0x80 ≠ 0 := (hb idx).mpr (by omega)
    simp only [pollAux, hr idx]
    rw [if_pos hbusy, ih (idx + 1) (by omega)]

/-- If receive `k` is the first clear one and it lies inside the fuel
window, the loop exits with frame `k` after `k - idx + 1` receives. -/
lemma pollAux_finds (t : Transport) (fs : Nat → RawFrame) (k : Nat)
    (hr : ∀ i, t.recv i = Except.ok (fs i))
    (hb : ∀ i, ((fs i).d0 &&& 0x80 ≠ 0) ↔ i < k) :
    ∀ fuel idx, idx ≤ k → k < idx + fuel →
      pollAux t idx fuel = (Except.ok (fs k), k - idx + 1) := by
  intro fuel
  induction fuel with
  | zero => intro idx h1 h2; omega
  | succ n ih =>
    intro idx h1 h2
    by_cases hik : idx = k
    · subst hik
      have hclear : ¬((fs idx).d0 &&& 0x80 ≠ 0) := by rw [hb]; omega
      simp only [pollAux, hr idx]
      rw [if_neg hclear]
      simp only [Prod.mk.injEq]
      exact ⟨trivial, by omega⟩
    · have hbusy : (fs idx).d0 &&& 0x80 ≠ 0 := (hb idx).mpr (by omega)
      simp only [pollAux, hr idx]
      rw [if_pos hbusy, ih (idx + 1) (by omega) (by omega)]
      simp only [Prod.mk.injEq]
      exact ⟨trivial, by omega⟩

/-- If receives before `j` are BUSY and receive `j` fails, the loop
propagates the receive error after `j - idx + 1` receives. -/
lemma pollAux_recv_error (t : Transport) (fs : Nat → RawFrame) (j : Nat) (e : Int)
    (hbusy : ∀ i, i < j → t.recv i = Except.ok (fs i) ∧ (fs i).d0 &&& 0x80 ≠ 0)
    (he : t.recv j = Except.error e) :
    ∀ fuel idx, idx ≤ j → j < idx + fuel →
      pollAux t idx fuel = (Except.error e, j - idx + 1) := by
  intro fuel
  induction fuel with
  | zero => intro idx h1 h2; omega
  | succ n ih =>
    intro idx h1 h2
    by_cases hij : idx = j
    · subst hij
      simp only [pollAux, he]
      simp only [Prod.mk.injEq]
      exact ⟨trivial, by omega⟩
    · obtain ⟨hri, hbi⟩ := hbusy idx (by omega)
      simp only [pollAux, hri]
      rw [if_pos hbi, ih (idx + 1) (by omega) (by omega)]
      simp only [Prod.mk.injEq]
      exact ⟨trivial, by omega⟩

/-- After a successful send, `aht21_read_raw_data` is the CRC check and
decode applied to the polling result. -/
lemma read_raw_after_poll (t : Transport) (hs : t.send measureCmd = Except.ok ()) :
    aht21_read_raw_data t = checkAndDecode (pollAux t 0 10) := by
  unfold aht21_read_raw_data
  rw [hs]

/- ### Claim theorems -/

/-- Claim C1 (code bug evidence): the conversion of aht21.c lines
162-163 divides the raw value by `2^20` BEFORE multiplying by the scale,
so for every in-range pair of raw values the code produces humidity 0
and temperature -50, never the specified
`floor(raw / 2^20 * scale)` values (which would be 99 and 149 at the
maximal raw value `2^20 - 1`). -/
theorem C1_conversion_constant (hr tr : Nat) (h1 : hr < 2 ^ 20) (h2 : tr < 2 ^ 20) :
    to_physical hr tr = (0, -50) := by
  norm_num at h1 h2
  have e1 : hr / 1048576 = 0 := Nat.div_eq_of_lt (by omega)
  have e2 : tr / 1048576 = 0 := Nat.div_eq_of_lt (by omega)
  simp only [to_physical, humidity_pct, temperature_c, u32, toSigned32, e1, e2]
  norm_num

/-- Witness for C1 at the maximal raw values `2^20 - 1`: the claim
expects humidity 99 or 100 and temperature 149 there, but the code
yields 0 and -50. -/
theorem C1_conversion_constant_witness :
    1048575 < 2 ^ 20 ∧ to_physical 1048575 1048575 = (0, -50) :=
  ⟨by norm_num, C1_conversion_constant 1048575 1048575 (by norm_num) (by norm_num)⟩

/-- Claim C2: for every 7-byte frame (bytes < 256), the decoder extracts
`humidity_raw` as the 24-bit big-endian value of bytes 1-3 shifted right
by 4, and `temperature_raw` as the low nibble of byte 3 as top bits
followed by bytes 4 and 5; both are strictly below `2^20`. -/
theorem C2_field_extraction (f : RawFrame)
    (h1 : f.d1 < 256) (h2 : f.d2 < 256) (h3 : f.d3 < 256)
    (h4 : f.d4 < 256) (h5 : f.d5 < 256) :
    humidity_raw f = (f.d1 * 65536 + f.d2 * 256 + f.d3) / 16 ∧
    humidity_raw f < 2 ^ 20 ∧
    temperature_raw f = (f.d3 % 16) * 65536 + f.d4 * 256 + f.d5 ∧
    temperature_raw f < 2 ^ 20 := by
  have hh := humidity_raw_arith f h2 h3
  have ht := temperature_raw_arith f h4 h5
  refine ⟨hh, ?_, ht, ?_⟩
  · rw [hh]
    norm_num
    omega
  · rw [ht]
    norm_num
    omega

/-- Witness for C2 at a concrete frame with distinct byte values. -/
theorem C2_field_extraction_witness :
    humidity_raw C2_frame = (18 * 65536 + 52 * 256 + 86) / 16 ∧
    humidity_raw C2_frame < 2 ^ 20 ∧
    temperature_raw C2_frame = (86 % 16) * 65536 + 120 * 256 + 154 ∧
    temperature_raw C2_frame < 2 ^ 20 :=
  C2_field_extraction C2_frame (by decide) (by decide) (by decide) (by decide) (by decide)

/-- Claim C3: the source CRC (`aht21_crc8`) computes exactly the
reference algorithm of the specification (`crc8_spec`), and the CRC of
the empty sequence is 0xFF; being a Lean function of its input it is
deterministic and pure. -/
theorem C3_crc8_matches_reference :
    (∀ data : List Nat, aht21_crc8 data = crc8_spec data) ∧ aht21_crc8 [] = 0xFF := by
  constructor
  · intro data
    unfold aht21_crc8 crc8_spec
    exact crc8_foldl_eq_spec_aux data 0xFF
  · rfl

/-- Claim C7: packing any two 20-bit raw values into the 6-byte wire
layout and decoding reproduces them exactly. -/
theorem C7_pack_decode_roundtrip (hr tr : Nat) (h1 : hr < 2 ^ 20) (h2 : tr < 2 ^ 20) :
    humidity_raw (pack hr tr) = hr ∧ temperature_raw (pack hr tr) = tr := by
  norm_num at h1 h2
  have hd2 : (pack hr tr).d2 < 256 := by simp only [pack]; omega
  have hd3 : (pack hr tr).d3 < 256 := by simp only [pack]; omega
  have hd4 : (pack hr tr).d4 < 256 := by simp only [pack]; omega
  have hd5 : (pack hr tr).d5 < 256 := by simp only [pack]; omega
  have hh := humidity_raw_arith (pack hr tr) hd2 hd3
  have ht := temperature_raw_arith (pack hr tr) hd4 hd5
  simp only [pack] at hh ht
  refine ⟨?_, ?_⟩
  · simp only [pack]
    rw [hh]
    omega
  · simp only [pack]
    rw [ht]
    omega

/-- Witness for C7 at the raw pair (654321, 123456). -/
theorem C7_pack_decode_roundtrip_witness :
    654321 < 2 ^ 20 ∧ 123456 < 2 ^ 20 ∧
    humidity_raw (pack 654321 123456) = 654321 ∧
    temperature_raw (pack 654321 123456) = 123456 :=
  ⟨by norm_num, by norm_num,
    (C7_pack_decode_roundtrip 654321 123456 (by norm_num) (by norm_num)).1,
    (C7_pack_decode_roundtrip 654321 123456 (by norm_num) (by norm_num)).2⟩

/-- Claim C8: zero raw fields convert to 0 percent humidity and -50
Celsius, produced as an ordinary value, not an error. -/
theorem C8_zero_raw_conversion : to_physical 0 0 = (0, -50) := by decide

/-- Claim C4: with a transport whose receives are BUSY for exactly `k`
frames and then clear, the sequencer leaves the polling loop with frame
`k` after exactly `k + 1` receives when `k < 10`, and returns `-EBUSY`
(= -16) after exactly 10 receives when `k ≥ 10`. -/
theorem C4_polling_bounded (t : Transport) (fs : Nat → RawFrame) (k : Nat)
    (hs : t.send measureCmd = Except.ok ())
    (hr : ∀ i, t.recv i = Except.ok (fs i))
    (hb : ∀ i, ((fs i).d0 &&& 0x80 ≠ 0) ↔ i < k) :
    (k < 10 →
      pollAux t 0 10 = (Except.ok (fs k), k + 1) ∧ (aht21_read_raw_data t).2 = k + 1) ∧
    (10 ≤ k → aht21_read_raw_data t = (Except.error (-16), 10)) := by
  constructor
  · intro hk
    have hp := pollAux_finds t fs k hr hb 10 0 (by omega) (by omega)
    have hp' : pollAux t 0 10 = (Except.ok (fs k), k + 1) := by
      rw [hp]
      simp only [Prod.mk.injEq]
      exact ⟨trivial, by omega⟩
    refine ⟨hp', ?_⟩
    rw [read_raw_after_poll t hs, hp']
    simp only [checkAndDecode]
    by_cases hc : aht21_crc8 (fs k).crcBytes ≠ (fs k).d6
    · rw [if_pos hc]
    · rw [if_neg hc]
  · intro hk
    have hp := pollAux_busy_all t fs k hr hb 10 0 (by omega)
    rw [read_raw_after_poll t hs, hp]
    simp only [checkAndDecode]

set_option maxRecDepth 8192 in
/-- Witness for C4 with three BUSY frames followed by a clear one. -/
theorem C4_polling_bounded_witness :
    pollAux C4_t 0 10 = (Except.ok (C4_fs 3), 4) ∧ (aht21_read_raw_data C4_t).2 = 4 :=
  (C4_polling_bounded C4_t C4_fs 3 rfl (fun _ => rfl)
    (by
      intro i
      simp only [C4_fs]
      by_cases h : i < 3 <;> simp [h])).1 (by omega)

/-- Claim C5: once the polling loop accepts a frame, a CRC byte that
differs from the CRC of bytes 0-5 makes `aht21_read_raw_data` return
`-EIO` (= -5) with no further receives and no measurement value, and any
successful result can only arise from a frame whose CRC matched, decoded
by the field decoder. -/
theorem C5_crc_mismatch_rejected (t : Transport) (f : RawFrame) (c : Nat)
    (hs : t.send measureCmd = Except.ok ())
    (hp : pollAux t 0 10 = (Except.ok f, c)) :
    (aht21_crc8 f.crcBytes ≠ f.d6 → aht21_read_raw_data t = (Except.error (-5), c)) ∧
    (∀ m, (aht21_read_raw_data t).1 = Except.ok m →
      aht21_crc8 f.crcBytes = f.d6 ∧
      m = ⟨temperature_c (temperature_raw f), humidity_pct (humidity_raw f)⟩) := by
  constructor
  · intro hc
    rw [read_raw_after_poll t hs, hp]
    simp only [checkAndDecode]
    rw [if_pos hc]
  · intro m hm
    rw [read_raw_after_poll t hs, hp] at hm
    simp only [checkAndDecode] at hm
    by_cases hc : aht21_crc8 f.crcBytes ≠ f.d6
    · rw [if_pos hc] at hm
      exact absurd hm (by simp)
    · rw [if_neg hc] at hm
      push_neg at hc
      simp only [Except.ok.injEq] at hm
      exact ⟨hc, hm.symm⟩

set_option maxRecDepth 8192 in
/-- Witness for C5: a clear all-zero frame whose CRC byte 0 differs from
the computed CRC 106 of its first six bytes is rejected with -5 after a
single receive. -/
theorem C5_crc_mismatch_rejected_witness :
    aht21_read_raw_data C5_t = (Except.error (-5), 1) :=
  (C5_crc_mismatch_rejected C5_t ⟨0, 0, 0, 0, 0, 0, 0⟩ 1 rfl rfl).1 (by decide)

/-- Claim C6: a failing send makes `aht21_read_raw_data` return that
transport error with zero receives (so no polling, no CRC check, no
decode), and a failing receive (after `j` BUSY receives, `j < 10`) makes
it return that transport error immediately after the `j + 1`-th receive. -/
theorem C6_transport_error_propagation (t : Transport) :
    (∀ e, t.send measureCmd = Except.error e →
      aht21_read_raw_data t = (Except.error e, 0)) ∧
    (∀ (fs : Nat → RawFrame) (j : Nat) (e : Int), t.send measureCmd = Except.ok () → j < 10 →
      (∀ i, i < j → t.recv i = Except.ok (fs i) ∧ (fs i).d0 &&& 0x80 ≠ 0) →
      t.recv j = Except.error e →
      aht21_read_raw_data t = (Except.error e, j + 1)) := by
  constructor
  · intro e he
    unfold aht21_read_raw_data
    rw [he]
  · intro fs j e hs hj hbusy he
    have hp := pollAux_recv_error t fs j e hbusy he 10 0 (by omega) (by omega)
    have hp' : pollAux t 0 10 = (Except.error e, j + 1) := by
      rw [hp]
      simp only [Prod.mk.injEq]
      exact ⟨trivial, by omega⟩
    rw [read_raw_after_poll t hs, hp']
    simp only [checkAndDecode]

/-- Witness for C6: a transport whose send fails with -121 yields
`(-121, 0 receives)`. -/
theorem C6_transport_error_propagation_witness :
    aht21_read_raw_data C6_t = (Except.error (-121), 0) :=
  (C6_transport_error_propagation C6_t).1 (-121) rfl

/-- Claim C9: on a successful measurement, `aht21_read` at file position
0 returns the formatted pair (temperature, then humidity) as two
whitespace-separated decimal integers followed by a newline, returning
its length and advancing the position by it; at any position past 0 it
returns end-of-stream (0 bytes, nothing written, position unchanged). -/
theorem C9_read_formats_and_eof (t : Transport) (m : Meas)
    (h : (aht21_read_raw_data t).1 = Except.ok m) :
    aht21_read t 0 =
      ⟨((formatMeas m).length : Int), formatMeas m, (formatMeas m).length⟩ ∧
    (∀ p, 0 < p → aht21_read t p = ⟨0, "", p⟩) := by
  constructor
  · unfold aht21_read
    rw [if_neg (by omega), h]
    simp
  · intro p hp
    unfold aht21_read
    rw [if_pos hp]

set_option maxRecDepth 8192 in
/-- Witness for C9: the all-zero frame with matching CRC measures as
temperature -50 and humidity 0, formatted and returned at position 0;
position 6 then yields end-of-stream. -/
theorem C9_read_formats_and_eof_witness :
    aht21_read C9_t 0 =
      ⟨((formatMeas ⟨-50, 0⟩).length : Int), formatMeas ⟨-50, 0⟩,
        (formatMeas ⟨-50, 0⟩).length⟩ ∧
    aht21_read C9_t 6 = ⟨0, "", 6⟩ :=
  have h := C9_read_formats_and_eof C9_t ⟨-50, 0⟩ (by rfl)
  ⟨h.1, h.2 6 (by omega)⟩

/-- Claim C10: when the measurement fails, `aht21_read` at position 0
returns that error, writes nothing, and leaves the position at 0, so a
later read attempts a fresh measurement instead of seeing
end-of-stream. -/
theorem C10_read_error_keeps_position (t : Transport) (e : Int)
    (h : (aht21_read_raw_data t).1 = Except.error e) :
    aht21_read t 0 = ⟨e, "", 0⟩ := by
  unfold aht21_read
  rw [if_neg (by omega), h]

/-- Witness for C10: a transport failing with -71 yields return value
-71 and position 0. -/
theorem C10_read_error_keeps_position_witness :
    aht21_read C10_t 0 = ⟨-71, "", 0⟩ :=
  C10_read_error_keeps_position C10_t (-71) rfl

end AHT21
